import Mathlib

/-!
Verification of the canonical-dimension / fuzzy-entity-resolution / fact-assembly
pipeline (source file TL.py, function transform_data and its helpers).

Conventions of the embedding:
* a pandas null (NaN / NaT / None) cell is `Option.none`; a present cell is `some v`;
* a Python exception is `Except.error msg`; normal return is `Except.ok`;
* timestamps are rata-die day numbers (`Nat`); the calendar conversion functions
  mirror the proleptic Gregorian calendar used by pandas / strftime;
* similarity scores are integers in `[0, 100]` as in the specification;
* added columns are modelled as `Option` fields of the row structures that are
  `none` while the column is absent.
-/

deriving instance DecidableEq for Except

namespace TL

/-! ## String utilities

Kernel-evaluable splitting and digit parsing over the character list of a
string (the core `String.splitOn` and `String.toNat?` are position-based and
do not evaluate inside the kernel). -/

/-- Split a character list at a separator character; empty pieces are kept
(Python `str.split(sep)` semantics). -/
def splitChAux (sep : Char) : List Char → List Char → List String
  | [], cur => [String.mk cur.reverse]
  | c :: cs, cur =>
    if c == sep then String.mk cur.reverse :: splitChAux sep cs []
    else splitChAux sep cs (c :: cur)

/-- Split a string at a separator character. -/
def splitOnChar (sep : Char) (s : String) : List String :=
  splitChAux sep s.data []

/-- Decimal digit value of a character, if any. -/
def digitVal? (c : Char) : Option Nat :=
  if 48 ≤ c.toNat && c.toNat ≤ 57 then some (c.toNat - 48) else none

def strToNatAux : List Char → Nat → Option Nat
  | [], acc => some acc
  | c :: cs, acc =>
    match digitVal? c with
    | some d => strToNatAux cs (acc * 10 + d)
    | none => none

/-- Parse a nonempty all-digit string as a natural number. -/
def strToNat? (s : String) : Option Nat :=
  match s.data with
  | [] => none
  | l => strToNatAux l 0

/-! ## Order-preserving deduplication (pandas `unique`, Python `set`) -/

/-- First-occurrence deduplication: keeps the first copy of each element,
in order of first appearance.  Models `pandas.Series.unique()` and
`drop_duplicates()`.  It is also used as the deterministic representative of
the Python `set(...)` step at lines 65 and 71 of the source, whose iteration
order is unspecified (spec §9). -/
def uniqueFirstAux [BEq α] (seen : List α) : List α → List α
  | [] => []
  | x :: xs =>
    if seen.contains x then uniqueFirstAux seen xs
    else x :: uniqueFirstAux (x :: seen) xs

/-- First-occurrence deduplication, entry point. -/
def uniqueFirst [BEq α] (l : List α) : List α := uniqueFirstAux [] l

/-! ## Similarity scorer

The source calls `rapidfuzz.fuzz.token_set_ratio`, an external library.
Modelled from the spec: §4.1 requires `score(a, b) : integer in [0, 100]`,
computed from the whitespace token sets of the two strings, returning 100 for
identical token sets, 0 for disjoint token sets, and an interpolated
Jaccard-style value otherwise. -/

/-- Whitespace tokenisation into a set (list without duplicates); empty
tokens are dropped as in Python `str.split()`. -/
def tokenSet (s : String) : List String :=
  uniqueFirst ((splitOnChar ' ' s).filter (fun t => !(t == "")))

/-- Intersection of two lists, as sets. -/
def listInter [BEq α] (A B : List α) : List α :=
  A.filter (fun a => B.contains a)

/-- Set equality test for two lists. -/
def listSetEq [BEq α] (A B : List α) : Bool :=
  A.all (fun a => B.contains a) && B.all (fun b => A.contains b)

/-- Modelled from the spec: the token-set similarity scorer of §4.1
(the source uses the external `fuzz.token_set_ratio`): 100 for identical
token sets, 0 for disjoint token sets, a Jaccard-weighted ratio otherwise. -/
def tokenSetScore (a b : String) : Nat :=
  let A := tokenSet a
  let B := tokenSet b
  let I := listInter A B
  if listSetEq A B then 100
  else if I.isEmpty then 0
  else (200 * I.length) / (A.length + B.length)

/-! ## Fuzzy entity resolver (source lines 78-88) -/

/-- Modelled from the spec: the best-candidate search of the external
`rapidfuzz.process.extractOne` (spec §4.2): scans the candidates in order and
keeps the first candidate attaining the maximum score (a later candidate
replaces the current best only on a strictly greater score). -/
def extractBest (f : String → String → Nat) (q : String)
    (best : String × Nat) : List String → String × Nat
  | [] => best
  | c :: cs =>
    if best.2 < f q c then extractBest f q (c, f q c) cs
    else extractBest f q best cs

/-- Modelled from the spec: `process.extractOne(name, choices, scorer)`;
returns `none` on an empty candidate list. -/
def extractOne (f : String → String → Nat) (q : String) :
    List String → Option (String × Nat)
  | [] => none
  | c :: cs => some (extractBest f q (c, f q c) cs)

/-- `fuzzy_match` (source lines 78-80): unpacks the tuple returned by
`extractOne`; when the candidate list is empty `extractOne` yields no tuple
and the unpacking raises a `TypeError`.  Returns the best candidate when its
score reaches `threshold` (the source default is 85), else `None`. -/
def fuzzy_match (f : String → String → Nat) (name : String)
    (choices : List String) (threshold : Nat) : Except String (Option String) :=
  match extractOne f name choices with
  | none => Except.error "TypeError: cannot unpack non-iterable NoneType object"
  | some (m, s) => Except.ok (if threshold ≤ s then some m else none)

/-- `map_name_to_id` (source lines 82-88): null gate on the query, fuzzy match
against the name column of the dimension table, then Python truthiness test
`if matched:` (an empty string is falsy), then key lookup of the matched name.
The source always calls `fuzzy_match` with its default threshold 85; the
threshold is kept as a parameter here and instantiated with 85 by the
transform. -/
def map_name_to_id (f : String → String → Nat) (name : Option String)
    (dim : List (String × Nat)) (threshold : Nat) : Except String (Option Nat) :=
  match name with
  | none => Except.ok none
  | some n =>
    match fuzzy_match f n (dim.map Prod.fst) threshold with
    | Except.error e => Except.error e
    | Except.ok none => Except.ok none
    | Except.ok (some m) =>
      if m = "" then Except.ok none
      else
        match dim.find? (fun r => r.1 == m) with
        | some r => Except.ok (some r.2)
        | none => Except.error "IndexError: index 0 is out of bounds for axis 0 with size 0"

/-- The resolver contract of spec §4.2: null gate (from `map_name_to_id`,
line 83) composed with `fuzzy_match` (lines 78-80). -/
def resolve (f : String → String → Nat) (query : Option String)
    (candidates : List String) (threshold : Nat) : Except String (Option String) :=
  match query with
  | none => Except.ok none
  | some q => fuzzy_match f q candidates threshold

/-- Written from the words of spec §4.2, for comparison with `resolve`:
score every candidate, select the candidate with the maximum score with ties
broken by first occurrence in the given order, return it when its score
reaches the threshold. -/
def resolveSpec (f : String → String → Nat) (query : Option String)
    (candidates : List String) (threshold : Nat) : Option String :=
  match query with
  | none => none
  | some q =>
    match candidates.find? (fun c => f q c == (candidates.map (f q)).foldr max 0) with
    | some w => if threshold ≤ (candidates.map (f q)).foldr max 0 then some w else none
    | none => none

/-! ## Calendar arithmetic

pandas Timestamps and `strftime` are external; the conversions below are the
standard proleptic-Gregorian civil-date algorithms, with day numbers counted
from 0000-03-01. -/

/-- Gregorian leap-year test. -/
def isLeap (y : Nat) : Bool :=
  (y % 4 == 0 && y % 100 != 0) || y % 400 == 0

/-- Days in a month of the Gregorian calendar. -/
def daysInMonth (y m : Nat) : Nat :=
  if m == 2 then (if isLeap y then 29 else 28)
  else if m == 4 || m == 6 || m == 9 || m == 11 then 30
  else 31

/-- Day number of a Gregorian date (standard days-from-civil algorithm). -/
def daysFromCivil (y m d : Nat) : Nat :=
  let y2 := if m ≤ 2 then y - 1 else y
  let era := y2 / 400
  let yoe := y2 % 400
  let mp := if 2 < m then m - 3 else m + 9
  let doy := (153 * mp + 2) / 5 + d - 1
  let doe := yoe * 365 + yoe / 4 - yoe / 100 + doy
  era * 146097 + doe

/-- Gregorian (year, month, day) of a day number (standard civil-from-days
algorithm), the model of `strftime` date formatting. -/
def civilFromDays (z : Nat) : Nat × Nat × Nat :=
  let era := z / 146097
  let doe := z % 146097
  let yoe := (doe - doe / 1460 + doe / 36524 - doe / 146096) / 365
  let y := yoe + era * 400
  let doy := doe - (365 * yoe + yoe / 4 - yoe / 100)
  let mp := (5 * doy + 2) / 153
  let d := doy - (153 * mp + 2) / 5 + 1
  let m := if mp < 10 then mp + 3 else mp - 9
  (if m ≤ 2 then y + 1 else y, m, d)

/-- The date formatted as the integer YYYYMMDD (source lines 55 and 101:
`strftime` followed by `astype(int)`). -/
def dateKey (z : Nat) : Nat :=
  let c := civilFromDays z
  c.1 * 10000 + c.2.1 * 100 + c.2.2

/-- Modelled from the spec: `pd.to_datetime(..., errors="coerce")` parses a
textual date and yields null (NaT) on failure (§4.3).  Modelled as an ISO
`YYYY-MM-DD` parser validating the calendar; dates outside the pandas
Timestamp year range (pandas timestamps live in 1677-09-21..2262-04-11,
modelled conservatively as years 1678..2261) also coerce to NaT. -/
def parseDate (s : String) : Option Nat :=
  match (splitOnChar '-' s).map strToNat? with
  | [some y, some m, some d] =>
    if 1678 ≤ y && y ≤ 2261 && 1 ≤ m && m ≤ 12 && 1 ≤ d && d ≤ daysInMonth y m
    then some (daysFromCivil y m d) else none
  | _ => none

/-- A date cell: either the raw text read from the CSV or a parsed timestamp
column value (where `none` is NaT).  The `to_datetime` step rewrites raw
cells into parsed cells in place. -/
inductive DateVal where
  | raw (s : String)
  | ts (t : Option Nat)
deriving DecidableEq

/-- `pd.to_datetime` with coercion on one cell; already-parsed cells are
unchanged. -/
def DateVal.parseVal : DateVal → DateVal
  | raw s => ts (parseDate s)
  | ts t => ts t

/-- The timestamp of a parsed date cell (`none` for NaT or for a raw cell). -/
def DateVal.toTs : DateVal → Option Nat
  | raw _ => none
  | ts t => t

/-- Whether a date cell is still raw CSV text (before `to_datetime`). -/
def DateVal.isRaw : DateVal → Bool
  | raw _ => true
  | ts _ => false

/-! ## Tables -/

/-- A GPS session row (matchs_gps.csv / training_gps.csv): free-text player
`name`, `team_name`, a date, and the columns added during the transform. -/
structure GpsRow where
  name : Option String
  team_name : Option String
  date : DateVal
  session_type : Option String := none
  team_id : Option Nat := none
  player_id : Option Nat := none
deriving DecidableEq

/-- A wyscout player-event row (outfield or goalkeeper table): free-text
`player`, `team_name`, a date, and the columns added during the transform. -/
structure WyPlayerRow where
  player : Option String
  team_name : Option String
  date : DateVal
  team_id : Option Nat := none
  player_id : Option Nat := none
  player_type : Option String := none
deriving DecidableEq

/-- A wyscout match-event row: the `match` column (here `match_id`),
`team_name`, `competition`, a date, and the columns added during the
transform. -/
structure WyMatchRow where
  match_id : String
  team_name : Option String
  competition : Option String
  date : DateVal
  team_id : Option Nat := none
  competition_id : Option Nat := none
deriving DecidableEq

/-- A dim_date row (source lines 53-61).  The `week` column (isocalendar,
an external pandas computation no claim concerns) is not modelled. -/
structure DimDateRow where
  date : Nat
  date_key : Nat
  year : Nat
  month : Nat
  day : Nat
  quarter : Nat
deriving DecidableEq

/-- A dim_match row (source lines 99-101). -/
structure DimMatchRow where
  match_id : String
  date : Nat
  team_id : Option Nat
  competition_id : Option Nat
  date_key : Nat
deriving DecidableEq

/-- The five raw tables handed to `transform_data`. -/
structure Inputs where
  gps_match : List GpsRow
  gps_training : List GpsRow
  wyscout_outfield : List WyPlayerRow
  wyscout_goalkeeper : List WyPlayerRow
  wyscout_matches : List WyMatchRow
deriving DecidableEq

/-- The eight produced tables of `transform_data` together with the final
states of the five argument tables (the source mutates them in place). -/
structure TransformResult where
  dim_date : List DimDateRow
  dim_team : List (String × Nat)
  dim_player : List (String × Nat)
  dim_competition : List (String × Nat)
  dim_match : List DimMatchRow
  fact_player_gps : List GpsRow
  fact_player_wyscout : List WyPlayerRow
  fact_wyscout_match : List WyMatchRow
  post_gps_match : List GpsRow
  post_gps_training : List GpsRow
  post_wyscout_outfield : List WyPlayerRow
  post_wyscout_goalkeeper : List WyPlayerRow
  post_wyscout_matches : List WyMatchRow
deriving DecidableEq, Inhabited

/-! ## Series minima and maxima (pandas skips nulls; Python min/max treat
every comparison against NaT as false) -/

/-- Minimum of a list of naturals, `none` on the empty list. -/
def listMin? : List Nat → Option Nat
  | [] => none
  | x :: xs => some (match listMin? xs with | none => x | some m => min x m)

/-- Maximum of a list of naturals, `none` on the empty list. -/
def listMax? : List Nat → Option Nat
  | [] => none
  | x :: xs => some (match listMax? xs with | none => x | some m => max x m)

/-- `Series.min()`: skips nulls; all-null or empty gives NaT. -/
def seriesMin (l : List (Option Nat)) : Option Nat := listMin? (l.filterMap id)

/-- `Series.max()`: skips nulls; all-null or empty gives NaT. -/
def seriesMax (l : List (Option Nat)) : Option Nat := listMax? (l.filterMap id)

/-- Timestamp comparison with NaT semantics: any comparison against NaT is
false. -/
def optLt : Option Nat → Option Nat → Bool
  | some x, some y => decide (x < y)
  | _, _ => false

/-- Python `min(a, b)`: returns `b` when `b < a`, else `a` (line 50). -/
def pyMin (a b : Option Nat) : Option Nat := if optLt b a then b else a

/-- Python `max(a, b)`: returns `b` when `a < b`, else `a` (line 51). -/
def pyMax (a b : Option Nat) : Option Nat := if optLt a b then b else a

/-! ## The transform pipeline (source lines 40-116) -/

/-- Line 43: `gps_match["session_type"] = "match"` (in-place column add). -/
def gpsMatchTagged (inp : Inputs) : List GpsRow :=
  inp.gps_match.map (fun r => { r with session_type := some "match" })

/-- Line 44: `gps_training["session_type"] = "training"`. -/
def gpsTrainingTagged (inp : Inputs) : List GpsRow :=
  inp.gps_training.map (fun r => { r with session_type := some "training" })

/-- Lines 45, 47-48: concatenation of the two GPS tables followed by the
date parse. -/
def factPlayerGps0 (inp : Inputs) : List GpsRow :=
  (gpsMatchTagged inp ++ gpsTrainingTagged inp).map
    (fun r => { r with date := r.date.parseVal })

/-- Lines 47-48 applied to the match-event table (in place). -/
def wyMatchesParsed (inp : Inputs) : List WyMatchRow :=
  inp.wyscout_matches.map (fun r => { r with date := r.date.parseVal })

/-- Lines 47-48 applied to the outfield table (in place). -/
def wyOutfieldParsed (inp : Inputs) : List WyPlayerRow :=
  inp.wyscout_outfield.map (fun r => { r with date := r.date.parseVal })

/-- Lines 47-48 applied to the goalkeeper table (in place). -/
def wyGoalkeeperParsed (inp : Inputs) : List WyPlayerRow :=
  inp.wyscout_goalkeeper.map (fun r => { r with date := r.date.parseVal })

/-- Line 50: `min(fact_player_gps["date"].min(), wyscout_matches["date"].min())`.
Only the GPS fact table and the match-event table contribute. -/
def dateMinOf (inp : Inputs) : Option Nat :=
  pyMin (seriesMin ((factPlayerGps0 inp).map (fun r => r.date.toTs)))
        (seriesMin ((wyMatchesParsed inp).map (fun r => r.date.toTs)))

/-- Line 51: the matching maximum. -/
def dateMaxOf (inp : Inputs) : Option Nat :=
  pyMax (seriesMax ((factPlayerGps0 inp).map (fun r => r.date.toTs)))
        (seriesMax ((wyMatchesParsed inp).map (fun r => r.date.toTs)))

/-- Every date cell of every input table is raw CSV text, as extracted
tables are (the transform parses them itself at lines 47-48). -/
def allRawDates (inp : Inputs) : Bool :=
  inp.gps_match.all (fun r => r.date.isRaw) &&
  inp.gps_training.all (fun r => r.date.isRaw) &&
  inp.wyscout_outfield.all (fun r => r.date.isRaw) &&
  inp.wyscout_goalkeeper.all (fun r => r.date.isRaw) &&
  inp.wyscout_matches.all (fun r => r.date.isRaw)

/-- The successfully parsed dates of the two tables feeding the date range
(lines 50-51): the GPS fact table and the match-event table. -/
def combinedFactTs (inp : Inputs) : List Nat :=
  ((factPlayerGps0 inp).map (fun r => r.date.toTs) ++
   (wyMatchesParsed inp).map (fun r => r.date.toTs)).filterMap id

/-- One row of the generated calendar (lines 53-61). -/
def mkDimDateRow (z : Nat) : DimDateRow :=
  let c := civilFromDays z
  { date := z, date_key := dateKey z, year := c.1, month := c.2.1,
    day := c.2.2, quarter := (c.2.1 + 2) / 3 }

/-- Lines 52-61: `pd.date_range(start, end)` generates every day of the
inclusive range, one row per day. -/
def dimDateRows (lo hi : Nat) : List DimDateRow :=
  (List.range' lo (hi + 1 - lo)).map mkDimDateRow

/-- Lines 63-65: distinct team names over the GPS fact table and the two
wyscout player tables. -/
def teamNamesOf (inp : Inputs) : List String :=
  uniqueFirst
    (uniqueFirst ((factPlayerGps0 inp).filterMap (fun r => r.team_name)) ++
     uniqueFirst (((wyOutfieldParsed inp).map (fun r => r.team_name) ++
       (wyGoalkeeperParsed inp).map (fun r => r.team_name)).filterMap id))

/-- Lines 69-71: distinct player names over the GPS fact table and the two
wyscout player tables. -/
def playerNamesOf (inp : Inputs) : List String :=
  uniqueFirst
    (uniqueFirst ((factPlayerGps0 inp).filterMap (fun r => r.name)) ++
     uniqueFirst (((wyOutfieldParsed inp).map (fun r => r.player) ++
       (wyGoalkeeperParsed inp).map (fun r => r.player)).filterMap id))

/-- Line 75: distinct competition names of the match-event table. -/
def competitionNamesOf (inp : Inputs) : List String :=
  uniqueFirst ((wyMatchesParsed inp).filterMap (fun r => r.competition))

/-- The multiset of team-name observations feeding the team dimension
(lines 63-64): every non-null `team_name` cell of the GPS fact table and of
the two wyscout player tables. -/
def observedTeamNames (inp : Inputs) : List String :=
  (factPlayerGps0 inp).filterMap (fun r => r.team_name) ++
  ((wyOutfieldParsed inp).map (fun r => r.team_name) ++
   (wyGoalkeeperParsed inp).map (fun r => r.team_name)).filterMap id

/-- The multiset of player-name observations feeding the player dimension
(lines 69-70). -/
def observedPlayerNames (inp : Inputs) : List String :=
  (factPlayerGps0 inp).filterMap (fun r => r.name) ++
  ((wyOutfieldParsed inp).map (fun r => r.player) ++
   (wyGoalkeeperParsed inp).map (fun r => r.player)).filterMap id

/-- The multiset of competition observations feeding the competition
dimension (line 75). -/
def observedCompetitionNames (inp : Inputs) : List String :=
  (wyMatchesParsed inp).filterMap (fun r => r.competition)

/-- Lines 66-67 / 72-73 / 76: surrogate keys `range(1, len + 1)` zipped with
the canonical names. -/
def dimOf (names : List String) : List (String × Nat) :=
  names.zip (List.range' 1 names.length)

/-- dim_team (lines 63-67). -/
def dim_team_of (inp : Inputs) : List (String × Nat) := dimOf (teamNamesOf inp)

/-- dim_player (lines 69-73). -/
def dim_player_of (inp : Inputs) : List (String × Nat) := dimOf (playerNamesOf inp)

/-- dim_competition (lines 75-76). -/
def dim_competition_of (inp : Inputs) : List (String × Nat) := dimOf (competitionNamesOf inp)

/-- Monadic per-element map over `Except`, the model of a pandas
column-by-column `.apply` pass that can raise: stops at the first raising
element. -/
def mapME (f : α → Except String β) : List α → Except String (List β)
  | [] => Except.ok []
  | a :: as =>
    match f a with
    | Except.error e => Except.error e
    | Except.ok b =>
      match mapME f as with
      | Except.error e => Except.error e
      | Except.ok bs => Except.ok (b :: bs)

/-- Lines 90-91 applied to one GPS fact row. -/
def resolveGpsRow (dimT dimP : List (String × Nat)) (r : GpsRow) :
    Except String GpsRow :=
  match map_name_to_id tokenSetScore r.team_name dimT 85 with
  | Except.error e => Except.error e
  | Except.ok tid =>
    match map_name_to_id tokenSetScore r.name dimP 85 with
    | Except.error e => Except.error e
    | Except.ok pid => Except.ok { r with team_id := tid, player_id := pid }

/-- Lines 90-91: resolve team and player references of the GPS fact rows. -/
def resolveGpsRows (dimT dimP : List (String × Nat)) (rows : List GpsRow) :
    Except String (List GpsRow) :=
  mapME (resolveGpsRow dimT dimP) rows

/-- Lines 92-95 applied to one wyscout player row. -/
def resolveWyPlayerRow (dimT dimP : List (String × Nat)) (r : WyPlayerRow) :
    Except String WyPlayerRow :=
  match map_name_to_id tokenSetScore r.team_name dimT 85 with
  | Except.error e => Except.error e
  | Except.ok tid =>
    match map_name_to_id tokenSetScore r.player dimP 85 with
    | Except.error e => Except.error e
    | Except.ok pid => Except.ok { r with team_id := tid, player_id := pid }

/-- Lines 92-95: resolve team and player references of a wyscout player
table (in place). -/
def resolveWyPlayerRows (dimT dimP : List (String × Nat)) (rows : List WyPlayerRow) :
    Except String (List WyPlayerRow) :=
  mapME (resolveWyPlayerRow dimT dimP) rows

/-- Lines 96-97 applied to one match-event row. -/
def resolveWyMatchRow (dimT dimC : List (String × Nat)) (r : WyMatchRow) :
    Except String WyMatchRow :=
  match map_name_to_id tokenSetScore r.team_name dimT 85 with
  | Except.error e => Except.error e
  | Except.ok tid =>
    match map_name_to_id tokenSetScore r.competition dimC 85 with
    | Except.error e => Except.error e
    | Except.ok cid => Except.ok { r with team_id := tid, competition_id := cid }

/-- Lines 96-97: resolve team and competition references of the match-event
table (in place). -/
def resolveWyMatchRows (dimT dimC : List (String × Nat)) (rows : List WyMatchRow) :
    Except String (List WyMatchRow) :=
  mapME (resolveWyMatchRow dimT dimC) rows

/-- Lines 99-101: select (match, date, team_id, competition_id), drop
duplicate tuples, and derive `date_key` with `strftime` + `astype(int)`;
`astype(int)` raises on a NaT date (strftime of NaT is NaN). -/
def dimMatchOf (wyM2 : List WyMatchRow) : Except String (List DimMatchRow) :=
  mapME
    (fun t => match t.2.1.toTs with
      | some z =>
        Except.ok { match_id := t.1, date := z, team_id := t.2.2.1, competition_id := t.2.2.2, date_key := dateKey z }
      | none => Except.error "IntCastingNaNError: Cannot convert non-finite values (NA or inf) to integer")
    (uniqueFirst (wyM2.map (fun r => (r.match_id, r.date, r.team_id, r.competition_id))))

/-- `transform_data` (lines 40-116): the full transform, returning the eight
output tables and the final states of the five input tables. -/
def transformData (inp : Inputs) : Except String TransformResult :=
  let gpsM := gpsMatchTagged inp
  let gpsT := gpsTrainingTagged inp
  let factGps := factPlayerGps0 inp
  let wyM := wyMatchesParsed inp
  let wyO := wyOutfieldParsed inp
  let wyG := wyGoalkeeperParsed inp
  match dateMinOf inp, dateMaxOf inp with
  | some lo, some hi =>
    let dimTeam := dim_team_of inp
    let dimPlayer := dim_player_of inp
    let dimComp := dim_competition_of inp
    match resolveGpsRows dimTeam dimPlayer factGps with
    | Except.error e => Except.error e
    | Except.ok factGps2 =>
      match resolveWyPlayerRows dimTeam dimPlayer wyO with
      | Except.error e => Except.error e
      | Except.ok wyO2 =>
        match resolveWyPlayerRows dimTeam dimPlayer wyG with
        | Except.error e => Except.error e
        | Except.ok wyG2 =>
          match resolveWyMatchRows dimTeam dimComp wyM with
          | Except.error e => Except.error e
          | Except.ok wyM2 =>
            match dimMatchOf wyM2 with
            | Except.error e => Except.error e
            | Except.ok dimMatch =>
              let wyO3 := wyO2.map (fun r => { r with player_type := some "outfield" })
              let wyG3 := wyG2.map (fun r => { r with player_type := some "goalkeeper" })
              Except.ok {
                dim_date := dimDateRows lo hi
                dim_team := dimTeam
                dim_player := dimPlayer
                dim_competition := dimComp
                dim_match := dimMatch
                fact_player_gps := factGps2
                fact_player_wyscout := wyG3 ++ wyO3
                fact_wyscout_match := wyM2
                post_gps_match := gpsM
                post_gps_training := gpsT
                post_wyscout_outfield := wyO3
                post_wyscout_goalkeeper := wyG3
                post_wyscout_matches := wyM2 }
  | _, _ => Except.error "ValueError: Neither start nor end can be NaT"

/-! ## Concrete inputs used by counterexamples and witnesses -/

/-- A small input set: one GPS match row, one GPS training row, one outfield
row whose date (2020-01-01) lies outside the GPS/match date window, and one
match row. -/
def cexC5 : Inputs where
  gps_match := [{ name := some "John Doe", team_name := some "FC Alpha", date := DateVal.raw "2024-05-01" }]
  gps_training := [{ name := some "John Doe", team_name := some "FC Alpha", date := DateVal.raw "2024-05-03" }]
  wyscout_outfield := [{ player := some "John Doe", team_name := some "FC Alpha", date := DateVal.raw "2020-01-01" }]
  wyscout_goalkeeper := []
  wyscout_matches := [{ match_id := "m1", team_name := some "FC Alpha", competition := some "League One", date := DateVal.raw "2024-05-02" }]

/-- A small input set whose match-event row has an unparseable date while
both GPS rows parse. -/
def cexC4 : Inputs where
  gps_match := [{ name := some "John Doe", team_name := some "FC Alpha", date := DateVal.raw "2024-05-01" }]
  gps_training := [{ name := some "John Doe", team_name := some "FC Alpha", date := DateVal.raw "2024-05-03" }]
  wyscout_outfield := []
  wyscout_goalkeeper := []
  wyscout_matches := [{ match_id := "m1", team_name := some "FC Alpha", competition := some "League One", date := DateVal.raw "not-a-date" }]

/-- The successful transform result on `cexC5`, used to witness the frame
characterization. -/
def resC9 : TransformResult := ((transformData cexC5).toOption).getD default

/-! # Theorems -/

/-! ## Deduplication lemmas -/

theorem mem_uniqueFirstAux [BEq α] [LawfulBEq α] (l : List α) :
    ∀ (seen : List α) (a : α), a ∈ uniqueFirstAux seen l ↔ a ∈ l ∧ a ∉ seen := by
  induction l with
  | nil => intro seen a; simp [uniqueFirstAux]
  | cons x xs ih =>
    intro seen a
    simp only [uniqueFirstAux]
    by_cases hx : x ∈ seen
    · rw [if_pos (List.elem_eq_true_of_mem hx), ih, List.mem_cons]
      constructor
      · rintro ⟨h1, h2⟩
        exact ⟨Or.inr h1, h2⟩
      · rintro ⟨h1 | h1, h2⟩
        · exact absurd (h1 ▸ hx) h2
        · exact ⟨h1, h2⟩
    · rw [if_neg (by simpa using hx), List.mem_cons, List.mem_cons, ih]
      by_cases hax : a = x
      · subst hax
        simp [hx]
      · simp only [List.mem_cons]
        constructor
        · rintro (h1 | ⟨h1, h2⟩)
          · exact absurd h1 hax
          · refine ⟨Or.inr h1, fun hs => h2 (Or.inr hs)⟩
        · rintro ⟨h1 | h1, h2⟩
          · exact absurd h1 hax
          · exact Or.inr ⟨h1, fun hs => by
              rcases hs with h | h
              · exact hax h
              · exact h2 h⟩

theorem mem_uniqueFirst [BEq α] [LawfulBEq α] (l : List α) (a : α) :
    a ∈ uniqueFirst l ↔ a ∈ l := by
  rw [uniqueFirst, mem_uniqueFirstAux]
  simp

theorem nodup_uniqueFirstAux [BEq α] [LawfulBEq α] (l : List α) :
    ∀ seen : List α, (uniqueFirstAux seen l).Nodup := by
  induction l with
  | nil => intro seen; simp [uniqueFirstAux]
  | cons x xs ih =>
    intro seen
    simp only [uniqueFirstAux]
    split
    · exact ih seen
    · refine List.nodup_cons.2 ⟨fun hx => ?_, ih (x :: seen)⟩
      rw [mem_uniqueFirstAux] at hx
      exact hx.2 (List.mem_cons_self x seen)

theorem nodup_uniqueFirst [BEq α] [LawfulBEq α] (l : List α) :
    (uniqueFirst l).Nodup := nodup_uniqueFirstAux l []

/-! ## Scorer lemmas -/

theorem listSetEq_self [BEq α] [LawfulBEq α] (A : List α) : listSetEq A A = true := by
  simp [listSetEq, List.all_eq_true]

theorem tokenSetScore_self (s : String) : tokenSetScore s s = 100 := by
  simp [tokenSetScore, listSetEq_self]

theorem length_listInter_le_left [BEq α] (A B : List α) :
    (listInter A B).length ≤ A.length :=
  List.length_filter_le _ _

theorem length_listInter_le_right [BEq α] [LawfulBEq α] (A B : List α)
    (hA : A.Nodup) : (listInter A B).length ≤ B.length := by
  have hsub : listInter A B ⊆ B := by
    intro a ha
    simp only [listInter, List.mem_filter] at ha
    exact List.elem_iff.1 ha.2
  exact (List.subperm_of_subset (hA.filter _) hsub).length_le

theorem tokenSetScore_le_100 (a b : String) : tokenSetScore a b ≤ 100 := by
  have h1 := length_listInter_le_left (tokenSet a) (tokenSet b)
  have h2 := length_listInter_le_right (tokenSet a) (tokenSet b)
    (nodup_uniqueFirst _)
  simp only [tokenSetScore]
  split
  · exact Nat.le_refl 100
  · split
    · exact Nat.zero_le 100
    · apply Nat.div_le_of_le_mul
      omega

/-! ## Resolver lemmas -/

theorem foldr_max_init (l : List Nat) (a : Nat) :
    l.foldr max a = max a (l.foldr max 0) := by
  induction l with
  | nil => simp
  | cons c l ih => simp only [List.foldr, ih]; omega

theorem foldr_max_zero_or_mem (l : List Nat) :
    l.foldr max 0 = 0 ∨ l.foldr max 0 ∈ l := by
  induction l with
  | nil => simp
  | cons c l ih =>
    simp only [List.foldr, List.mem_cons]
    rcases ih with h | h <;> rcases Nat.le_total c (l.foldr max 0) with hc | hc
    · right; left; omega
    · right; left; omega
    · right; right; rwa [max_eq_right hc]
    · right; left; omega

theorem foldr_max_le_of_mem (l : List Nat) (a : Nat) (h : a ∈ l) :
    a ≤ l.foldr max 0 := by
  induction l with
  | nil => simp at h
  | cons c l ih =>
    simp only [List.mem_cons] at h
    simp only [List.foldr]
    rcases h with rfl | h
    · omega
    · have := ih h; omega

/-- The iterative best-candidate search equals: keep the running best when no
candidate beats it, else the first candidate attaining the overall maximum. -/
theorem extractBest_eq (f : String → String → Nat) (q : String)
    (cs : List String) (b : String × Nat) :
    extractBest f q b cs =
      if (cs.map (f q)).foldr max 0 ≤ b.2 then b
      else
        match cs.find? (fun c => f q c == (cs.map (f q)).foldr max 0) with
        | some w => (w, (cs.map (f q)).foldr max 0)
        | none => b := by
  induction cs generalizing b with
  | nil => simp [extractBest]
  | cons c cs ih =>
    simp only [extractBest, List.map_cons, List.foldr_cons, List.find?_cons]
    rcases Nat.le_total ((cs.map (f q)).foldr max 0) (f q c) with hM | hM
    · -- the head score dominates the tail maximum
      rw [max_eq_left hM]
      by_cases hb : b.2 < f q c
      · rw [if_pos hb, ih]
        simp only [beq_self_eq_true]
        rw [if_pos hM, if_neg (by omega)]
      · rw [if_neg hb, ih]
        rw [if_pos (Nat.le_trans hM (Nat.not_lt.1 hb)), if_pos (Nat.not_lt.1 hb)]
    · -- the tail maximum dominates the head score
      rw [max_eq_right hM]
      by_cases hcM : f q c = (cs.map (f q)).foldr max 0
      · -- tie between head and tail maximum: the head can still win
        by_cases hb : b.2 < f q c
        · rw [if_pos hb, ih]
          simp only [← hcM]
          rw [if_pos (Nat.le_refl _), if_neg (by omega)]
          simp
        · rw [if_neg hb, ih, ← hcM]
          have hbM : f q c ≤ b.2 := Nat.not_lt.1 hb
          rw [if_pos hbM, if_pos hbM]
      · have hcM2 : (f q c == (cs.map (f q)).foldr max 0) = false := by
          simp [hcM]
        rw [hcM2]
        by_cases hb : b.2 < f q c
        · have hlt : f q c < (cs.map (f q)).foldr max 0 := by omega
          rw [if_pos hb, ih, if_neg (by omega), if_neg (by omega)]
          cases hfind : List.find? (fun x => f q x == (cs.map (f q)).foldr max 0) cs with
          | some w => rfl
          | none =>
            exfalso
            have hmem : (cs.map (f q)).foldr max 0 ∈ cs.map (f q) := by
              rcases foldr_max_zero_or_mem (cs.map (f q)) with h0 | h0
              · omega
              · exact h0
            rcases List.mem_map.1 hmem with ⟨x, hx, hfx⟩
            have := List.find?_eq_none.1 hfind x hx
            simp [hfx] at this
        · rw [if_neg hb, ih]

/-- On a nonempty candidate list, `extractOne` returns the first candidate
attaining the maximum score, paired with that maximum. -/
theorem extractOne_eq_max (f : String → String → Nat) (q c : String) (cs : List String) :
    ∃ w, (c :: cs).find? (fun x => f q x == ((c :: cs).map (f q)).foldr max 0) = some w ∧
      f q w = ((c :: cs).map (f q)).foldr max 0 ∧
      extractOne f q (c :: cs) = some (w, ((c :: cs).map (f q)).foldr max 0) := by
  have hmem : ((c :: cs).map (f q)).foldr max 0 ∈ (c :: cs).map (f q) := by
    rcases foldr_max_zero_or_mem ((c :: cs).map (f q)) with h0 | h0
    · have hc : f q c ≤ ((c :: cs).map (f q)).foldr max 0 :=
        foldr_max_le_of_mem _ _ (by simp)
      rw [h0] at hc ⊢
      simp only [List.map_cons, List.mem_cons]
      left
      omega
    · exact h0
  cases hfind : (c :: cs).find? (fun x => f q x == ((c :: cs).map (f q)).foldr max 0) with
  | none =>
    exfalso
    rcases List.mem_map.1 hmem with ⟨x, hx, hfx⟩
    have := List.find?_eq_none.1 hfind x hx
    simp [hfx] at this
  | some w =>
    have hfw : f q w = ((c :: cs).map (f q)).foldr max 0 := by
      have := List.find?_some hfind
      simpa using this
    refine ⟨w, rfl, hfw, ?_⟩
    simp only [extractOne]
    rw [extractBest_eq]
    simp only [List.map_cons, List.foldr_cons] at hfind ⊢
    rcases Nat.le_total ((cs.map (f q)).foldr max 0) (f q c) with hM | hM
    · -- the head attains the maximum, so the head wins
      rw [max_eq_left hM] at hfind ⊢
      rw [List.find?_cons_of_pos _ (by simp)] at hfind
      rw [if_pos hM]
      simp only [Option.some.injEq] at hfind
      rw [hfind]
    · rw [max_eq_right hM] at hfind ⊢
      by_cases hcM : f q c = (cs.map (f q)).foldr max 0
      · -- tie: the head still wins
        rw [List.find?_cons_of_pos _ (by simp [hcM])] at hfind
        rw [if_pos (by omega)]
        simp only [Option.some.injEq] at hfind
        subst hfind
        rw [hcM]
      · have hlt : f q c < (cs.map (f q)).foldr max 0 := by
          have : f q c ≤ (cs.map (f q)).foldr max 0 := hM
          omega
        rw [List.find?_cons_of_neg _ (by simp [hcM])] at hfind
        rw [if_neg (by omega), hfind]

/-- On a nonempty candidate list, `fuzzy_match` returns the first candidate
attaining the maximum score when that maximum reaches the threshold, and
`None` otherwise. -/
theorem fuzzy_match_eq (f : String → String → Nat) (q : String)
    (cs : List String) (t : Nat) (h : cs ≠ []) :
    fuzzy_match f q cs t = Except.ok
      (match cs.find? (fun x => f q x == (cs.map (f q)).foldr max 0) with
       | some w => if t ≤ (cs.map (f q)).foldr max 0 then some w else none
       | none => none) := by
  cases cs with
  | nil => exact absurd rfl h
  | cons c cs =>
    obtain ⟨w, hw, hfw, hex⟩ := extractOne_eq_max f q c cs
    rw [fuzzy_match, hex, hw]

/-- C1: for every query and every nonempty ordered candidate list, `resolve`
returns null immediately on a null query; otherwise it scores the query
against every candidate, selects the candidate of maximum score with ties
broken by first occurrence in the given candidate order, and returns the
winner precisely when its score reaches the threshold — that is, `resolve`
agrees with the selection rule `resolveSpec` written from the words of
spec §4.2. -/
theorem claim_C1_resolve_contract (f : String → String → Nat)
    (q : Option String) (cs : List String) (t : Nat) (h : cs ≠ []) :
    resolve f q cs t = Except.ok (resolveSpec f q cs t) := by
  cases q with
  | none => rfl
  | some q =>
    simp only [resolve, resolveSpec]
    exact fuzzy_match_eq f q cs t h

/-- Witness for C1 at the concrete example of spec §8. -/
theorem claim_C1_resolve_contract_witness :
    (["FC Alpha", "FC Beta"] ≠ ([] : List String)) ∧
    resolve tokenSetScore (some "Alpha FC") ["FC Alpha", "FC Beta"] 85 =
      Except.ok (resolveSpec tokenSetScore (some "Alpha FC") ["FC Alpha", "FC Beta"] 85) :=
  ⟨by decide, claim_C1_resolve_contract tokenSetScore (some "Alpha FC")
    ["FC Alpha", "FC Beta"] 85 (by decide)⟩

/-- Helper: `find?` with the predicate `score = 100` returns the first
element scoring 100, here located after a prefix of sub-100 scores. -/
theorem find?_first_max (g : String → Nat) (names : List String) (n : String)
    (hn : n ∈ names) (hg : g n = 100)
    (hpre : ∀ m ∈ names.takeWhile (fun c => !(c == n)), g m < 100) :
    names.find? (fun c => g c == 100) = some n := by
  induction names with
  | nil => simp at hn
  | cons x xs ih =>
    by_cases hx : x = n
    · subst hx
      rw [List.find?_cons_of_pos _ (by simp [hg])]
    · have hxpre : x ∈ (x :: xs).takeWhile (fun c => !(c == n)) := by
        rw [List.takeWhile_cons_of_pos (by simp [hx])]
        exact List.mem_cons_self _ _
      have hgx : g x < 100 := hpre x hxpre
      rw [List.find?_cons_of_neg _ (by simp; omega)]
      apply ih
      · rcases List.mem_cons.1 hn with h | h
        · exact absurd h.symm hx
        · exact h
      · intro m hm
        apply hpre
        rw [List.takeWhile_cons_of_pos (by simp [hx])]
        exact List.mem_cons_of_mem _ hm

/-- Helper: in a dimension table with pairwise-distinct names, looking up a
name of a row returns that row. -/
theorem find?_row_eq (dim : List (String × Nat)) (n : String) (k : Nat)
    (hnodup : (dim.map Prod.fst).Nodup) (hmem : (n, k) ∈ dim) :
    dim.find? (fun r => r.1 == n) = some (n, k) := by
  induction dim with
  | nil => simp at hmem
  | cons r dim ih =>
    rcases List.mem_cons.1 hmem with h | hmem2
    · rw [← h, List.find?_cons_of_pos _ (by simp)]
    · have hr : r.1 ≠ n := by
        intro h
        rw [List.map_cons, List.nodup_cons] at hnodup
        exact hnodup.1 (h ▸ List.mem_map.2 ⟨(n, k), hmem2, rfl⟩)
      rw [List.find?_cons_of_neg _ (by simp [hr])]
      refine ih ?_ hmem2
      rw [List.map_cons, List.nodup_cons] at hnodup
      exact hnodup.2

/-- C2 fails on the code: "Alpha FC" is a canonical name of its own dimension
table (surrogate key 2), the threshold 85 is at most 100, yet resolution
returns key 1 — the earlier candidate "FC Alpha" has the identical token set,
also scores 100, and the tie is broken by first occurrence, not by identity. -/
theorem claim_C2_counterexample :
    ("Alpha FC", 2) ∈ [("FC Alpha", 1), ("Alpha FC", 2)] ∧
    map_name_to_id tokenSetScore (some "Alpha FC")
      [("FC Alpha", 1), ("Alpha FC", 2)] 85 = Except.ok (some 1) ∧
    (Except.ok (some 1) : Except String (Option Nat)) ≠ Except.ok (some 2) :=
  ⟨by decide, by rfl, by decide⟩

/-- C2 amended: resolving a canonical name n (non-empty, since line 86 drops
falsy matches) against its own dimension table with threshold at most 100
yields the key of n itself provided every candidate placed before n in the
table scores strictly below 100 against n; the self-match score is 100.
Without the proviso the first candidate scoring 100 wins instead of n. -/
theorem claim_C2_amended (dim : List (String × Nat)) (n : String) (k t : Nat)
    (ht : t ≤ 100) (hmem : (n, k) ∈ dim) (hnodup : (dim.map Prod.fst).Nodup)
    (hne : n ≠ "")
    (hpre : ∀ m ∈ (dim.map Prod.fst).takeWhile (fun c => !(c == n)),
      tokenSetScore n m < 100) :
    map_name_to_id tokenSetScore (some n) dim t = Except.ok (some k) := by
  have hnames : n ∈ dim.map Prod.fst := List.mem_map.2 ⟨(n, k), hmem, rfl⟩
  have hM : ((dim.map Prod.fst).map (tokenSetScore n)).foldr max 0 = 100 := by
    apply Nat.le_antisymm
    · rcases foldr_max_zero_or_mem ((dim.map Prod.fst).map (tokenSetScore n)) with h0 | h0
      · omega
      · rcases List.mem_map.1 h0 with ⟨x, hx, hfx⟩
        rw [← hfx]
        exact tokenSetScore_le_100 n x
    · have hself : tokenSetScore n n ∈ (dim.map Prod.fst).map (tokenSetScore n) :=
        List.mem_map.2 ⟨n, hnames, rfl⟩
      have h1 := foldr_max_le_of_mem _ _ hself
      rwa [tokenSetScore_self] at h1
  have hfind : (dim.map Prod.fst).find?
      (fun c => tokenSetScore n c ==
        ((dim.map Prod.fst).map (tokenSetScore n)).foldr max 0) = some n := by
    rw [hM]
    exact find?_first_max (tokenSetScore n) _ n hnames (tokenSetScore_self n) hpre
  have hfm := fuzzy_match_eq tokenSetScore n (dim.map Prod.fst) t
    (by intro h; rw [h] at hnames; simp at hnames)
  rw [hfind] at hfm
  dsimp only at hfm
  rw [hM, if_pos ht] at hfm
  simp only [map_name_to_id, hfm]
  rw [if_neg hne, find?_row_eq dim n k hnodup hmem]

/-- Witness for the amended C2 at a concrete dimension table. -/
theorem claim_C2_amended_witness :
    ((100 : Nat) ≤ 100 ∧ ("FC Beta", 2) ∈ [("FC Alpha", 1), ("FC Beta", 2)]) ∧
    map_name_to_id tokenSetScore (some "FC Beta")
      [("FC Alpha", 1), ("FC Beta", 2)] 100 = Except.ok (some 2) :=
  ⟨⟨by decide, by decide⟩,
    claim_C2_amended [("FC Alpha", 1), ("FC Beta", 2)] "FC Beta" 2 100
      (by decide) (by decide) (by decide) (by decide) (by decide)⟩

/-- C3: contrary to the claim, resolving a non-null query against an empty
candidate list does not return null: the tuple unpacking in `fuzzy_match`
(line 79) raises a `TypeError`, for every scorer, query and threshold. -/
theorem claim_C3_empty_candidates_fault (f : String → String → Nat)
    (q : String) (t : Nat) :
    resolve f (some q) [] t =
      Except.error "TypeError: cannot unpack non-iterable NoneType object" := rfl

/-- C8: `resolve` is deterministic — two calls with identical query,
candidate list and threshold return the identical output. -/
theorem claim_C8_deterministic (f : String → String → Nat) (q : Option String)
    (cs : List String) (t : Nat) (r₁ r₂ : Except String (Option String))
    (h₁ : resolve f q cs t = r₁) (h₂ : resolve f q cs t = r₂) : r₁ = r₂ :=
  h₁.symm.trans h₂

/-- Witness for C8 at a concrete repeated call. -/
theorem claim_C8_deterministic_witness :
    resolve tokenSetScore (some "Alpha FC") ["FC Alpha"] 85 = Except.ok (some "FC Alpha") ∧
    (Except.ok (some "FC Alpha") : Except String (Option String)) = Except.ok (some "FC Alpha") :=
  ⟨by rfl, claim_C8_deterministic tokenSetScore (some "Alpha FC") ["FC Alpha"] 85
    (Except.ok (some "FC Alpha")) (Except.ok (some "FC Alpha")) (by rfl) (by rfl)⟩

/-- C10: when the fuzzy match of a non-null query returns the empty string —
a candidate whose score met the threshold — `map_name_to_id` still returns
null, because line 86 tests the matched name for Python truthiness (`if
matched:`) rather than for being non-null. -/
theorem claim_C10_falsy_match (dim : List (String × Nat)) (n : String)
    (h : fuzzy_match tokenSetScore n (dim.map Prod.fst) 85 = Except.ok (some "")) :
    map_name_to_id tokenSetScore (some n) dim 85 = Except.ok none := by
  simp only [map_name_to_id, h]
  simp

/-! ## Calendar lemmas -/

theorem civilFromDays_md_bounds (z : Nat) :
    1 ≤ (civilFromDays z).2.1 ∧ (civilFromDays z).2.1 ≤ 12 ∧
    1 ≤ (civilFromDays z).2.2 ∧ (civilFromDays z).2.2 ≤ 31 := by
  simp only [civilFromDays]
  split <;> omega

theorem civilFromDays_y_bounds (z : Nat) (hlo : 600000 ≤ z) (hhi : z ≤ 830000) :
    1000 ≤ (civilFromDays z).1 ∧ (civilFromDays z).1 ≤ 9999 := by
  simp only [civilFromDays]
  split <;> split <;> omega

theorem daysFromCivil_range (y m d : Nat) (h1 : 1678 ≤ y) (h2 : y ≤ 2261)
    (h3 : 1 ≤ m) (h4 : m ≤ 12) (h5 : 1 ≤ d) (h6 : d ≤ 31) :
    600000 ≤ daysFromCivil y m d ∧ daysFromCivil y m d ≤ 830000 := by
  simp only [daysFromCivil]
  split <;> split <;> omega

theorem daysInMonth_le_31 (y m : Nat) : daysInMonth y m ≤ 31 := by
  simp only [daysInMonth]
  split
  · split <;> omega
  · split <;> omega

theorem parseDate_range (s : String) (z : Nat) (h : parseDate s = some z) :
    600000 ≤ z ∧ z ≤ 830000 := by
  unfold parseDate at h
  split at h
  · rename_i y m d heq
    split at h
    · rename_i hvalid
      simp only [Option.some.injEq] at h
      subst h
      simp only [Bool.and_eq_true, decide_eq_true_eq] at hvalid
      have hm := daysInMonth_le_31 y m
      exact daysFromCivil_range y m d (by omega) (by omega) (by omega)
        (by omega) (by omega) (by omega)
    · exact absurd h (by simp)
  · exact absurd h (by simp)

theorem dateKey_8digit (z : Nat) (hlo : 600000 ≤ z) (hhi : z ≤ 830000) :
    10000000 ≤ dateKey z ∧ dateKey z < 100000000 := by
  have hmd := civilFromDays_md_bounds z
  have hy := civilFromDays_y_bounds z hlo hhi
  simp only [dateKey]
  omega

/-! ## Min and max lemmas -/

theorem listMin?_mem (l : List Nat) (a : Nat) (h : listMin? l = some a) : a ∈ l := by
  induction l generalizing a with
  | nil => simp [listMin?] at h
  | cons x xs ih =>
    simp only [listMin?] at h
    cases hxs : listMin? xs with
    | none =>
      rw [hxs] at h
      simp only [Option.some.injEq] at h
      simp [← h]
    | some m =>
      rw [hxs] at h
      simp only [Option.some.injEq] at h
      rcases Nat.le_total x m with hh | hh
      · have : a = x := by omega
        simp [this]
      · have : a = m := by omega
        exact List.mem_cons_of_mem _ (this ▸ ih m hxs)

theorem listMin?_le (l : List Nat) (a : Nat) (h : listMin? l = some a) :
    ∀ x ∈ l, a ≤ x := by
  induction l generalizing a with
  | nil => simp [listMin?] at h
  | cons x xs ih =>
    simp only [listMin?] at h
    intro t ht
    rcases List.mem_cons.1 ht with rfl | ht2
    · cases hxs : listMin? xs with
      | none => rw [hxs] at h; simp only [Option.some.injEq] at h; omega
      | some m => rw [hxs] at h; simp only [Option.some.injEq] at h; omega
    · cases hxs : listMin? xs with
      | none =>
        cases xs with
        | nil => simp at ht2
        | cons u us => simp [listMin?] at hxs
      | some m =>
        rw [hxs] at h
        simp only [Option.some.injEq] at h
        have := ih m hxs t ht2
        omega

theorem listMax?_mem (l : List Nat) (a : Nat) (h : listMax? l = some a) : a ∈ l := by
  induction l generalizing a with
  | nil => simp [listMax?] at h
  | cons x xs ih =>
    simp only [listMax?] at h
    cases hxs : listMax? xs with
    | none =>
      rw [hxs] at h
      simp only [Option.some.injEq] at h
      simp [← h]
    | some m =>
      rw [hxs] at h
      simp only [Option.some.injEq] at h
      rcases Nat.le_total x m with hh | hh
      · have : a = m := by omega
        exact List.mem_cons_of_mem _ (this ▸ ih m hxs)
      · have : a = x := by omega
        simp [this]

theorem listMax?_ge (l : List Nat) (a : Nat) (h : listMax? l = some a) :
    ∀ x ∈ l, x ≤ a := by
  induction l generalizing a with
  | nil => simp [listMax?] at h
  | cons x xs ih =>
    simp only [listMax?] at h
    intro t ht
    rcases List.mem_cons.1 ht with rfl | ht2
    · cases hxs : listMax? xs with
      | none => rw [hxs] at h; simp only [Option.some.injEq] at h; omega
      | some m => rw [hxs] at h; simp only [Option.some.injEq] at h; omega
    · cases hxs : listMax? xs with
      | none =>
        cases xs with
        | nil => simp at ht2
        | cons u us => simp [listMax?] at hxs
      | some m =>
        rw [hxs] at h
        simp only [Option.some.injEq] at h
        have := ih m hxs t ht2
        omega

theorem listMin?_append (a b : List Nat) :
    listMin? (a ++ b) =
      match listMin? a, listMin? b with
      | none, x => x
      | some x, none => some x
      | some x, some y => some (min x y) := by
  induction a with
  | nil =>
    rw [List.nil_append]
    cases hb : listMin? b <;> simp [listMin?, hb]
  | cons x xs ih =>
    simp only [List.cons_append, listMin?, List.append_eq]
    rw [ih]
    cases hxs : listMin? xs <;> cases hb : listMin? b <;>
      simp [min_assoc]

theorem listMax?_append (a b : List Nat) :
    listMax? (a ++ b) =
      match listMax? a, listMax? b with
      | none, x => x
      | some x, none => some x
      | some x, some y => some (max x y) := by
  induction a with
  | nil =>
    rw [List.nil_append]
    cases hb : listMax? b <;> simp [listMax?, hb]
  | cons x xs ih =>
    simp only [List.cons_append, listMax?, List.append_eq]
    rw [ih]
    cases hxs : listMax? xs <;> cases hb : listMax? b <;>
      simp [max_assoc]

/-! ## Date range lemmas -/

/-- When line 50 yields a non-NaT minimum, it is the minimum of the parsed
dates of the GPS fact table and the match-event table together. -/
theorem dateMinOf_eq (inp : Inputs) (lo : Nat) (h : dateMinOf inp = some lo) :
    listMin? (combinedFactTs inp) = some lo := by
  rw [combinedFactTs, List.filterMap_append, listMin?_append]
  rw [dateMinOf, pyMin, seriesMin, seriesMin] at h
  cases hA : listMin? ((List.map (fun r => r.date.toTs) (factPlayerGps0 inp)).filterMap id) <;>
    cases hB : listMin? ((List.map (fun r => r.date.toTs) (wyMatchesParsed inp)).filterMap id) <;>
    rw [hA, hB] at h <;> simp only [optLt] at h
  · simp at h
  · simp at h
  · simpa using h
  · rename_i g m
    simp only [decide_eq_true_eq] at h
    split at h <;> simp only [Option.some.injEq] at h ⊢ <;> omega

/-- When line 51 yields a non-NaT maximum, it is the maximum of the parsed
dates of the GPS fact table and the match-event table together. -/
theorem dateMaxOf_eq (inp : Inputs) (hi : Nat) (h : dateMaxOf inp = some hi) :
    listMax? (combinedFactTs inp) = some hi := by
  rw [combinedFactTs, List.filterMap_append, listMax?_append]
  rw [dateMaxOf, pyMax, seriesMax, seriesMax] at h
  cases hA : listMax? ((List.map (fun r => r.date.toTs) (factPlayerGps0 inp)).filterMap id) <;>
    cases hB : listMax? ((List.map (fun r => r.date.toTs) (wyMatchesParsed inp)).filterMap id) <;>
    rw [hA, hB] at h <;> simp only [optLt] at h
  · simp at h
  · simp at h
  · simpa using h
  · rename_i g m
    simp only [decide_eq_true_eq] at h
    split at h <;> simp only [Option.some.injEq] at h ⊢ <;> omega

/-- A parsed raw date cell holds a timestamp inside the pandas range. -/
theorem toTs_parseVal_raw (v : DateVal) (hv : v.isRaw = true) (z : Nat)
    (h : (v.parseVal).toTs = some z) : 600000 ≤ z ∧ z ≤ 830000 := by
  cases v with
  | raw s =>
    exact parseDate_range s z (by simpa [DateVal.parseVal, DateVal.toTs] using h)
  | ts t => simp [DateVal.isRaw] at hv

/-- Every date collected for the range computation from raw inputs lies in
the pandas timestamp range. -/
theorem combinedFactTs_range (inp : Inputs) (hraw : allRawDates inp = true) :
    ∀ z ∈ combinedFactTs inp, 600000 ≤ z ∧ z ≤ 830000 := by
  have hraw5 := hraw
  simp only [allRawDates, Bool.and_eq_true, List.all_eq_true] at hraw5
  obtain ⟨⟨⟨⟨h1, h2⟩, h3⟩, h4⟩, h5⟩ := hraw5
  intro z hz
  simp only [combinedFactTs, List.filterMap_append, List.mem_append,
    List.filterMap_map, List.mem_filterMap, Function.comp] at hz
  rcases hz with ⟨r, hr, hrz⟩ | ⟨r, hr, hrz⟩
  · simp only [factPlayerGps0, gpsMatchTagged, gpsTrainingTagged, List.map_append,
      List.mem_append, List.map_map, List.mem_map, Function.comp] at hr
    rcases hr with ⟨r0, hr0, rfl⟩ | ⟨r0, hr0, rfl⟩
    · exact toTs_parseVal_raw _ (h1 r0 hr0) z (by simpa using hrz)
    · exact toTs_parseVal_raw _ (h2 r0 hr0) z (by simpa using hrz)
  · simp only [wyMatchesParsed, List.mem_map] at hr
    rcases hr with ⟨r0, hr0, rfl⟩
    exact toTs_parseVal_raw _ (h5 r0 hr0) z (by simpa using hrz)

/-- C5 fails on the code as claimed: the outfield table is a fact source and
its row dated 2020-01-01 parses (to day number 737730), yet lines 50-51 take
the minimum and maximum over the GPS fact table and the match-event table
only, so the generated calendar is the three days 2024-05-01..2024-05-03 and
has no row for the observed date 2020-01-01, although the claim requires one
row per day of the inclusive range over all observed dates of all fact
sources. -/
theorem claim_C5_counterexample :
    cexC5.wyscout_outfield.map (fun r => r.date.parseVal.toTs) = [some 737730] ∧
    dateMinOf cexC5 = some 739312 ∧
    dateMaxOf cexC5 = some 739314 ∧
    (transformData cexC5).toOption.map TransformResult.dim_date =
      some (dimDateRows 739312 739314) ∧
    (dimDateRows 739312 739314).map DimDateRow.date = [739312, 739313, 739314] ∧
    737730 ∉ (dimDateRows 739312 739314).map DimDateRow.date ∧
    737730 < 739312 := by decide

/-- C5 amended: when the date minimum and maximum of lines 50-51 are
non-null (requiring at least one parseable GPS date) and the inputs carry
raw date text, the generated date dimension has exactly (max - min) + 1
rows, its dates are the gapless inclusive day range [min, max], each row
key equals its date formatted as YYYYMMDD and is an 8-digit integer — but
the range is taken over the GPS fact table and the match-event table only,
not over the outfield/goalkeeper fact sources. -/
theorem claim_C5_amended (inp : Inputs) (lo hi : Nat)
    (hraw : allRawDates inp = true)
    (hmin : dateMinOf inp = some lo) (hmax : dateMaxOf inp = some hi) :
    listMin? (combinedFactTs inp) = some lo ∧
    listMax? (combinedFactTs inp) = some hi ∧
    (dimDateRows lo hi).length = hi - lo + 1 ∧
    (dimDateRows lo hi).map DimDateRow.date = List.range' lo (hi - lo + 1) ∧
    ∀ r ∈ dimDateRows lo hi,
      r.date_key = dateKey r.date ∧
      10000000 ≤ r.date_key ∧ r.date_key < 100000000 := by
  have hA := dateMinOf_eq inp lo hmin
  have hB := dateMaxOf_eq inp hi hmax
  have hlomem := listMin?_mem _ _ hA
  have hhimem := listMax?_mem _ _ hB
  have hlohi : lo ≤ hi := listMax?_ge _ _ hB lo hlomem
  have hcount : hi + 1 - lo = hi - lo + 1 := by omega
  refine ⟨hA, hB, ?_, ?_, ?_⟩
  · simp [dimDateRows, hcount]
  · simp only [dimDateRows, hcount, List.map_map]
    have : (DimDateRow.date ∘ mkDimDateRow) = id := by
      funext z
      simp [mkDimDateRow, Function.comp]
    rw [this, List.map_id]
  · intro r hr
    simp only [dimDateRows, List.mem_map] at hr
    obtain ⟨z, hz, rfl⟩ := hr
    have hzr : lo ≤ z ∧ z < lo + (hi + 1 - lo) := List.mem_range'_1.1 hz
    have hlor := combinedFactTs_range inp hraw lo hlomem
    have hhir := combinedFactTs_range inp hraw hi hhimem
    have hrange1 : 600000 ≤ z := by omega
    have hrange2 : z ≤ 830000 := by omega
    have h8 := dateKey_8digit z hrange1 hrange2
    exact ⟨rfl, h8.1, h8.2⟩

/-- Witness for the amended C5 at the concrete input set. -/
theorem claim_C5_amended_witness :
    allRawDates cexC5 = true ∧
    (listMin? (combinedFactTs cexC5) = some 739312 ∧
     listMax? (combinedFactTs cexC5) = some 739314 ∧
     (dimDateRows 739312 739314).length = 739314 - 739312 + 1 ∧
     (dimDateRows 739312 739314).map DimDateRow.date =
       List.range' 739312 (739314 - 739312 + 1) ∧
     ∀ r ∈ dimDateRows 739312 739314,
       r.date_key = dateKey r.date ∧
       10000000 ≤ r.date_key ∧ r.date_key < 100000000) :=
  ⟨by decide,
    claim_C5_amended cexC5 739312 739314 (by decide) (by decide) (by decide)⟩

/-! ## Dimension builder lemmas -/

theorem dimOf_fst (names : List String) : (dimOf names).map Prod.fst = names :=
  List.map_fst_zip _ _ (by simp)

theorem dimOf_snd (names : List String) :
    (dimOf names).map Prod.snd = List.range' 1 names.length :=
  List.map_snd_zip _ _ (by simp)

theorem dimOf_length (names : List String) : (dimOf names).length = names.length := by
  simp [dimOf]

theorem nodup_teamNamesOf (inp : Inputs) : (teamNamesOf inp).Nodup :=
  nodup_uniqueFirst _

theorem nodup_playerNamesOf (inp : Inputs) : (playerNamesOf inp).Nodup :=
  nodup_uniqueFirst _

theorem nodup_competitionNamesOf (inp : Inputs) : (competitionNamesOf inp).Nodup :=
  nodup_uniqueFirst _

theorem mem_teamNamesOf (inp : Inputs) (x : String) :
    x ∈ teamNamesOf inp ↔ x ∈ observedTeamNames inp := by
  simp [teamNamesOf, observedTeamNames, mem_uniqueFirst, List.mem_append]

theorem mem_playerNamesOf (inp : Inputs) (x : String) :
    x ∈ playerNamesOf inp ↔ x ∈ observedPlayerNames inp := by
  simp [playerNamesOf, observedPlayerNames, mem_uniqueFirst, List.mem_append]

theorem mem_competitionNamesOf (inp : Inputs) (x : String) :
    x ∈ competitionNamesOf inp ↔ x ∈ observedCompetitionNames inp := by
  simp [competitionNamesOf, observedCompetitionNames, mem_uniqueFirst]

/-- C6: for every run, each canonical dimension table (team, player,
competition) has pairwise-distinct canonical names and surrogate keys that
are exactly the dense integer range 1..N in table order, where N is the
number of rows. -/
theorem claim_C6_surrogate_keys (inp : Inputs) :
    (((dim_team_of inp).map Prod.fst).Nodup ∧
      (dim_team_of inp).map Prod.snd = List.range' 1 (dim_team_of inp).length) ∧
    (((dim_player_of inp).map Prod.fst).Nodup ∧
      (dim_player_of inp).map Prod.snd = List.range' 1 (dim_player_of inp).length) ∧
    (((dim_competition_of inp).map Prod.fst).Nodup ∧
      (dim_competition_of inp).map Prod.snd = List.range' 1 (dim_competition_of inp).length) := by
  refine ⟨⟨?_, ?_⟩, ⟨?_, ?_⟩, ⟨?_, ?_⟩⟩
  · rw [dim_team_of, dimOf_fst]; exact nodup_teamNamesOf inp
  · rw [dim_team_of, dimOf_snd, dimOf_length]
  · rw [dim_player_of, dimOf_fst]; exact nodup_playerNamesOf inp
  · rw [dim_player_of, dimOf_snd, dimOf_length]
  · rw [dim_competition_of, dimOf_fst]; exact nodup_competitionNamesOf inp
  · rw [dim_competition_of, dimOf_snd, dimOf_length]

/-- C7: dimension building deduplicates by exact string equality only: every
observed non-null name appears in its canonical table exactly once (equal
strings collapse across providers and source tables), and unobserved
strings — including near-duplicate spellings of observed ones — have their
own distinct row or none, never merged (count is 1 for observed, 0
otherwise).  Stated for the team, player and competition tables. -/
theorem claim_C7_exact_dedup (inp : Inputs) (x : String) :
    ((dim_team_of inp).map Prod.fst).count x =
      (if x ∈ observedTeamNames inp then 1 else 0) ∧
    ((dim_player_of inp).map Prod.fst).count x =
      (if x ∈ observedPlayerNames inp then 1 else 0) ∧
    ((dim_competition_of inp).map Prod.fst).count x =
      (if x ∈ observedCompetitionNames inp then 1 else 0) := by
  refine ⟨?_, ?_, ?_⟩
  · rw [dim_team_of, dimOf_fst]
    by_cases hx : x ∈ observedTeamNames inp
    · rw [if_pos hx]
      exact List.count_eq_one_of_mem (nodup_teamNamesOf inp)
        ((mem_teamNamesOf inp x).2 hx)
    · rw [if_neg hx]
      exact List.count_eq_zero.2 (fun h => hx ((mem_teamNamesOf inp x).1 h))
  · rw [dim_player_of, dimOf_fst]
    by_cases hx : x ∈ observedPlayerNames inp
    · rw [if_pos hx]
      exact List.count_eq_one_of_mem (nodup_playerNamesOf inp)
        ((mem_playerNamesOf inp x).2 hx)
    · rw [if_neg hx]
      exact List.count_eq_zero.2 (fun h => hx ((mem_playerNamesOf inp x).1 h))
  · rw [dim_competition_of, dimOf_fst]
    by_cases hx : x ∈ observedCompetitionNames inp
    · rw [if_pos hx]
      exact List.count_eq_one_of_mem (nodup_competitionNamesOf inp)
        ((mem_competitionNamesOf inp x).2 hx)
    · rw [if_neg hx]
      exact List.count_eq_zero.2 (fun h => hx ((mem_competitionNamesOf inp x).1 h))

/-! ## Unparseable dates (C4) -/

/-- C4 is right about local handling of the range computation but wrong
about fatality: on an input whose match-event row has an unparseable date,
`to_datetime(errors="coerce")` turns it into NaT and the range computation
(lines 50-51) skips it — but line 101 then formats the NaT date of the
dim_match row with `strftime` (giving NaN) and `astype(int)` raises,
aborting the whole run instead of yielding a null date_key. -/
theorem claim_C4_unparseable_date_aborts :
    parseDate "not-a-date" = none ∧
    dateMinOf cexC4 = some 739312 ∧
    dateMaxOf cexC4 = some 739314 ∧
    transformData cexC4 =
      Except.error "IntCastingNaNError: Cannot convert non-finite values (NA or inf) to integer" := by
  decide

/-! ## Frame behaviour of the transform (C9) -/

/-- Projection of successful `mapME` results. -/
theorem mapME_ok_proj (f : α → Except String β) (g : β → γ) (g2 : α → γ)
    (hfg : ∀ a b, f a = Except.ok b → g b = g2 a) :
    ∀ (l : List α) (l2 : List β), mapME f l = Except.ok l2 →
      l2.map g = l.map g2 := by
  intro l
  induction l with
  | nil =>
    intro l2 h
    simp only [mapME, Except.ok.injEq] at h
    simp [← h]
  | cons a as ih =>
    intro l2 h
    simp only [mapME] at h
    cases hfa : f a with
    | error e => rw [hfa] at h; simp at h
    | ok b =>
      rw [hfa] at h
      cases has : mapME f as with
      | error e => rw [has] at h; simp at h
      | ok bs =>
        rw [has] at h
        simp only [Except.ok.injEq] at h
        subst h
        simp only [List.map_cons]
        rw [hfg a b hfa, ih bs has]

/-- Row resolution only writes the key columns of a wyscout player row. -/
theorem resolveWyPlayerRow_fields (dimT dimP : List (String × Nat))
    (r b : WyPlayerRow) (h : resolveWyPlayerRow dimT dimP r = Except.ok b) :
    b.player = r.player ∧ b.team_name = r.team_name ∧ b.date = r.date := by
  rw [resolveWyPlayerRow] at h
  split at h
  · simp at h
  · split at h
    · simp at h
    · simp only [Except.ok.injEq] at h
      subst h
      exact ⟨rfl, rfl, rfl⟩

/-- Row resolution only writes the key columns of a match-event row. -/
theorem resolveWyMatchRow_fields (dimT dimC : List (String × Nat))
    (r b : WyMatchRow) (h : resolveWyMatchRow dimT dimC r = Except.ok b) :
    b.match_id = r.match_id ∧ b.team_name = r.team_name ∧
    b.competition = r.competition ∧ b.date = r.date := by
  rw [resolveWyMatchRow] at h
  split at h
  · simp at h
  · split at h
    · simp at h
    · simp only [Except.ok.injEq] at h
      subst h
      exact ⟨rfl, rfl, rfl, rfl⟩

/-- Inversion of a successful transform: the final states of the five input
tables in terms of the pipeline stages. -/
theorem transformData_ok_inv (inp : Inputs) (res : TransformResult)
    (h : transformData inp = Except.ok res) :
    res.post_gps_match = gpsMatchTagged inp ∧
    res.post_gps_training = gpsTrainingTagged inp ∧
    res.post_wyscout_matches = res.fact_wyscout_match ∧
    (∃ wyO2, resolveWyPlayerRows (dim_team_of inp) (dim_player_of inp)
        (wyOutfieldParsed inp) = Except.ok wyO2 ∧
      res.post_wyscout_outfield =
        wyO2.map (fun r => { r with player_type := some "outfield" })) ∧
    (∃ wyG2, resolveWyPlayerRows (dim_team_of inp) (dim_player_of inp)
        (wyGoalkeeperParsed inp) = Except.ok wyG2 ∧
      res.post_wyscout_goalkeeper =
        wyG2.map (fun r => { r with player_type := some "goalkeeper" })) ∧
    (∃ wyM2, resolveWyMatchRows (dim_team_of inp) (dim_competition_of inp)
        (wyMatchesParsed inp) = Except.ok wyM2 ∧
      res.post_wyscout_matches = wyM2) := by
  rw [transformData] at h
  split at h
  · dsimp only at h
    split at h
    · simp at h
    · split at h
      · simp at h
      · split at h
        · simp at h
        · split at h
          · simp at h
          · split at h
            · simp at h
            · simp only [Except.ok.injEq] at h
              subst h
              refine ⟨rfl, rfl, rfl, ⟨_, ?_, rfl⟩, ⟨_, ?_, rfl⟩, ⟨_, ?_, rfl⟩⟩ <;>
                assumption
  · simp at h

/-- C9 fails on the code: the transform mutates its inputs in place — here
the GPS match table of a successfully transformed input gains a
session_type column, and the match-event table is parsed and keyed in
place, so the post-run tables differ from the passed tables. -/
theorem claim_C9_counterexample :
    (transformData cexC5).toOption.map TransformResult.post_gps_match =
      some [{ name := some "John Doe", team_name := some "FC Alpha", date := DateVal.raw "2024-05-01", session_type := some "match" }] ∧
    (transformData cexC5).toOption.map TransformResult.post_gps_match ≠
      some cexC5.gps_match ∧
    (transformData cexC5).toOption.map TransformResult.post_wyscout_matches ≠
      some cexC5.wyscout_matches := by
  decide

/-- C9 amended: the transform is not read-only on its inputs; on every
successful run the five argument tables end mutated as follows: the two GPS
tables gain a session_type provenance column (all other cells unchanged, key
columns are written on the concatenated copy only); the outfield and
goalkeeper tables keep their free-text cells but their date cells are
replaced by the parsed timestamps and a player_type column is added (besides
the key columns); the match-event table keeps its free-text cells with its
date parsed in place (besides the key columns), and is returned as the
fact_wyscout_match output (aliasing). -/
theorem claim_C9_amended (inp : Inputs) (res : TransformResult)
    (h : transformData inp = Except.ok res) :
    res.post_gps_match =
      inp.gps_match.map (fun r => { r with session_type := some "match" }) ∧
    res.post_gps_training =
      inp.gps_training.map (fun r => { r with session_type := some "training" }) ∧
    res.post_wyscout_outfield.map (fun r => (r.player, r.team_name, r.date, r.player_type)) =
      inp.wyscout_outfield.map (fun r => (r.player, r.team_name, r.date.parseVal, some "outfield")) ∧
    res.post_wyscout_goalkeeper.map (fun r => (r.player, r.team_name, r.date, r.player_type)) =
      inp.wyscout_goalkeeper.map (fun r => (r.player, r.team_name, r.date.parseVal, some "goalkeeper")) ∧
    res.post_wyscout_matches.map (fun r => (r.match_id, r.team_name, r.competition, r.date)) =
      inp.wyscout_matches.map (fun r => (r.match_id, r.team_name, r.competition, r.date.parseVal)) ∧
    res.post_wyscout_matches = res.fact_wyscout_match := by
  obtain ⟨h1, h2, h3, ⟨wyO2, hO, hOpost⟩, ⟨wyG2, hG, hGpost⟩, ⟨wyM2, hM, hMpost⟩⟩ :=
    transformData_ok_inv inp res h
  refine ⟨h1, h2, ?_, ?_, ?_, h3⟩
  · rw [hOpost, List.map_map]
    have hproj := mapME_ok_proj (resolveWyPlayerRow (dim_team_of inp) (dim_player_of inp))
      (fun b => (b.player, b.team_name, b.date, some "outfield"))
      (fun r => (r.player, r.team_name, r.date, some "outfield"))
      (fun a b hab => by
        obtain ⟨e1, e2, e3⟩ := resolveWyPlayerRow_fields _ _ a b hab
        simp [e1, e2, e3])
      (wyOutfieldParsed inp) wyO2 hO
    have hcomp : ((fun r : WyPlayerRow => (r.player, r.team_name, r.date, r.player_type)) ∘
        (fun r : WyPlayerRow => { r with player_type := some "outfield" })) =
        (fun b : WyPlayerRow => (b.player, b.team_name, b.date, some (α := String) "outfield")) := by
      funext b
      rfl
    rw [hcomp, hproj, wyOutfieldParsed, List.map_map]
    rfl
  · rw [hGpost, List.map_map]
    have hproj := mapME_ok_proj (resolveWyPlayerRow (dim_team_of inp) (dim_player_of inp))
      (fun b => (b.player, b.team_name, b.date, some "goalkeeper"))
      (fun r => (r.player, r.team_name, r.date, some "goalkeeper"))
      (fun a b hab => by
        obtain ⟨e1, e2, e3⟩ := resolveWyPlayerRow_fields _ _ a b hab
        simp [e1, e2, e3])
      (wyGoalkeeperParsed inp) wyG2 hG
    have hcomp : ((fun r : WyPlayerRow => (r.player, r.team_name, r.date, r.player_type)) ∘
        (fun r : WyPlayerRow => { r with player_type := some "goalkeeper" })) =
        (fun b : WyPlayerRow => (b.player, b.team_name, b.date, some (α := String) "goalkeeper")) := by
      funext b
      rfl
    rw [hcomp, hproj, wyGoalkeeperParsed, List.map_map]
    rfl
  · rw [hMpost]
    have hproj := mapME_ok_proj (resolveWyMatchRow (dim_team_of inp) (dim_competition_of inp))
      (fun b => (b.match_id, b.team_name, b.competition, b.date))
      (fun r => (r.match_id, r.team_name, r.competition, r.date))
      (fun a b hab => by
        obtain ⟨e1, e2, e3, e4⟩ := resolveWyMatchRow_fields _ _ a b hab
        simp [e1, e2, e3, e4])
      (wyMatchesParsed inp) wyM2 hM
    rw [hproj, wyMatchesParsed, List.map_map]
    rfl

/-- Witness for the amended C9 on the concrete input set. -/
theorem claim_C9_amended_witness :
    transformData cexC5 = Except.ok resC9 ∧
    (resC9.post_gps_match =
      cexC5.gps_match.map (fun r => { r with session_type := some "match" }) ∧
    resC9.post_gps_training =
      cexC5.gps_training.map (fun r => { r with session_type := some "training" }) ∧
    resC9.post_wyscout_outfield.map (fun r => (r.player, r.team_name, r.date, r.player_type)) =
      cexC5.wyscout_outfield.map (fun r => (r.player, r.team_name, r.date.parseVal, some "outfield")) ∧
    resC9.post_wyscout_goalkeeper.map (fun r => (r.player, r.team_name, r.date, r.player_type)) =
      cexC5.wyscout_goalkeeper.map (fun r => (r.player, r.team_name, r.date.parseVal, some "goalkeeper")) ∧
    resC9.post_wyscout_matches.map (fun r => (r.match_id, r.team_name, r.competition, r.date)) =
      cexC5.wyscout_matches.map (fun r => (r.match_id, r.team_name, r.competition, r.date.parseVal)) ∧
    resC9.post_wyscout_matches = resC9.fact_wyscout_match) :=
  ⟨by decide, claim_C9_amended cexC5 resC9 (by decide)⟩

/-- Witness for C10: the empty string is a canonical candidate and matches
the empty query with score 100, yet the resolved key is null. -/
theorem claim_C10_falsy_match_witness :
    fuzzy_match tokenSetScore "" ([("", 1)].map Prod.fst) 85 = Except.ok (some "") ∧
    map_name_to_id tokenSetScore (some "") [("", 1)] 85 = Except.ok none :=
  ⟨by rfl, claim_C10_falsy_match [("", 1)] "" (by rfl)⟩

end TL
